import Mathlib

/-!
Verification of the mapstructure error-aggregation and decode-hook layer.

The first part embeds the code of `src/error.go` and `src/errors.go`
(package mapstructure): the `joinedError` aggregate, `appendErrors`, and
the field-naming error types. The second part models the decode-hook
engine and combinators; their implementations are not under `src/` (only
their tests and the error types are), so those definitions are modelled
from the specification, as marked in their doc comments.
-/

namespace Mapstructure

/-- The single-quote character, written via its code point so that string
literals below stay free of quote characters. -/
def squote : String := "\x27"

/-- The `joinedError` struct of `src/error.go`: `Errors []string`, the
ordered collection of collected error messages. -/
structure JoinedError where
  Errors : List String
deriving DecidableEq

/-- Model of `sort.Strings`: returns the lexically sorted rearrangement of
a list of strings (the Go function sorts in place; any comparison sort
yields this same sorted permutation). -/
def sortStrings (l : List String) : List String :=
  List.insertionSort (fun a b => a ≤ b) l

/-- `func (e *joinedError) Error() string`: builds one bullet per collected
message via `fmt.Sprintf`, sorts the bullet list with `sort.Strings`, and
prepends the count header `"%d error(s) decoding:"` plus a blank line. -/
def JoinedError.errorStr (e : JoinedError) : String :=
  let points := e.Errors.map (fun err => "* " ++ err)
  let sortedPoints := sortStrings points
  toString e.Errors.length ++ " error(s) decoding:\n\n" ++
    String.intercalate "\n" sortedPoints

/-- The error values of the package relevant here: `joinedError` holding
its message list, `DecodeError` (field name plus inner error, from
`src/errors.go`), `ErrCannotDecode` (same data, second errors file), and a
primitive error as built by `errors.New` (a bare message). -/
inductive GoError where
  | joined (errs : List String)
  | decodeE (name : String) (err : GoError)
  | cannotDecode (name : String) (err : GoError)
  | prim (msg : String)
deriving DecidableEq

/-- The `Error()` method of each error value: `joinedError.Error` as
above; `DecodeError.Error` is `fmt.Sprintf` of the quoted name, a space,
and the inner message; `ErrCannotDecode.Error` is the quoted name, a colon
and space, and the inner message; `errors.New` yields its message. -/
def GoError.errorMsg : GoError → String
  | .joined errs => (JoinedError.mk errs).errorStr
  | .decodeE name err => squote ++ name ++ squote ++ " " ++ err.errorMsg
  | .cannotDecode name err => squote ++ name ++ squote ++ ": " ++ err.errorMsg
  | .prim msg => msg

/-- `func appendErrors(errors []string, err error) []string` from
`src/error.go`: a `*joinedError` argument has its stored messages spliced
onto the list; any other error contributes exactly one entry, its
formatted message. -/
def appendErrors (errs : List String) (err : GoError) : List String :=
  match err with
  | .joined es => errs ++ es
  | e => errs ++ [e.errorMsg]

/-- `func (e *joinedError) Unwrap() []error` with the pointer receiver
made explicit: `none` is the nil pointer (for which the method returns the
nil slice, `none`, instead of dereferencing), and a non-nil receiver gets
a fresh slice with one `errors.New` per stored message, in stored order. -/
def JoinedError.Unwrap : Option JoinedError → Option (List GoError)
  | none => none
  | some e => some (e.Errors.map GoError.prim)

/-- State-passing reading of `joinedError.Error`: the method writes only
into the freshly allocated local `points` slice (built by `make` and then
sorted in place), never through the receiver, so the receiver post-state
is returned unchanged next to the formatted message. -/
def JoinedError.errorSt (e : JoinedError) : String × JoinedError :=
  let points := e.Errors.map (fun err => "* " ++ err)
  let sortedPoints := sortStrings points
  (toString e.Errors.length ++ " error(s) decoding:\n\n" ++
    String.intercalate "\n" sortedPoints, e)

/-! ### The hook layer, modelled from the specification

The decode-hook engine, the combinators and the coercion catalog are code
of this repository that is not under `src/` (only their tests appear, in
the middle of `src/error.go`). The definitions below are modelled from
the specification, sections 4.1 to 4.4 and 8. -/

/-- Modelled from the spec: the closed set of value categories used for
hook dispatch (the `reflect.Kind` of the source and target). -/
inductive GoKind where
  | stringK | boolK
  | intK | int8K | int16K | int32K | int64K
  | uintK | uint8K | uint16K | uint32K | uint64K
  | float32K | float64K | complex64K | complex128K
  | sliceK | mapK | structK | interfaceK
  | durationK | timeK | urlK | ipK | ipNetK
  | netAddrK | netAddrPortK | netPrefixK
deriving DecidableEq

/-- Modelled from the spec: the dynamically-typed values flowing through
hooks. Numeric values carry their kind and an integer payload; domain
values (time, URL, addresses) carry their kind and a rendering; `nilV` is
the zero value of an interface target. -/
inductive GoValue where
  | str (s : String)
  | boolV (b : Bool)
  | numV (k : GoKind) (n : Int)
  | sliceV (elems : List GoValue)
  | mapV (entries : List (String × GoValue))
  | structV (fields : List (String × GoValue))
  | nilV
  | domainV (k : GoKind) (descr : String)

/-- The category tag of a value. -/
def GoValue.kind : GoValue → GoKind
  | .str _ => .stringK
  | .boolV _ => .boolK
  | .numV k _ => k
  | .sliceV _ => .sliceK
  | .mapV _ => .mapK
  | .structV _ => .structK
  | .nilV => .interfaceK
  | .domainV k _ => k

/-- The zero value of each category (the zero-valued placeholder that a
target descriptor carries). -/
def GoKind.zero : GoKind → GoValue
  | .stringK => .str ""
  | .boolK => .boolV false
  | .intK => .numV .intK 0
  | .int8K => .numV .int8K 0
  | .int16K => .numV .int16K 0
  | .int32K => .numV .int32K 0
  | .int64K => .numV .int64K 0
  | .uintK => .numV .uintK 0
  | .uint8K => .numV .uint8K 0
  | .uint16K => .numV .uint16K 0
  | .uint32K => .numV .uint32K 0
  | .uint64K => .numV .uint64K 0
  | .float32K => .numV .float32K 0
  | .float64K => .numV .float64K 0
  | .complex64K => .numV .complex64K 0
  | .complex128K => .numV .complex128K 0
  | .sliceK => .sliceV []
  | .mapK => .mapV []
  | .structK => .structV []
  | .interfaceK => .nilV
  | .durationK => .domainV .durationK ""
  | .timeK => .domainV .timeK ""
  | .urlK => .domainV .urlK ""
  | .ipK => .domainV .ipK ""
  | .ipNetK => .domainV .ipNetK ""
  | .netAddrK => .domainV .netAddrK ""
  | .netAddrPortK => .domainV .netAddrPortK ""
  | .netPrefixK => .domainV .netPrefixK ""

/-- Modelled from the spec: a catalog hook in normalized form. It is
driven by a target category, a parse function for the textual source, and
the fixed sanitized description used as its failure message (section 7:
the description names the destination shape and must not echo the
rejected input). -/
structure CatalogHook where
  targetKind : GoKind
  failMsg : String
  parse : String → Except String GoValue

/-- Modelled from the spec: executing a catalog hook. A textual source
aimed at the matching target category is parsed; any other source/target
pair is a no-op passthrough of the source value. -/
def CatalogHook.run (h : CatalogHook) (src tgt : GoValue) : Except String GoValue :=
  match src with
  | .str s => if tgt.kind = h.targetKind then h.parse s else .ok (.str s)
  | v => .ok v

/-- Hexadecimal-capable digit value of a character. -/
def digitVal (c : Char) : Option Nat :=
  if c ≥ '0' ∧ c ≤ '9' then some (c.toNat - Char.toNat '0')
  else if c ≥ 'a' ∧ c ≤ 'f' then some (c.toNat - Char.toNat 'a' + 10)
  else if c ≥ 'A' ∧ c ≤ 'F' then some (c.toNat - Char.toNat 'A' + 10)
  else none

/-- Digit accumulation in a given base; fails on any character that is not
a digit of that base. -/
def parseDigitsAux (base : Nat) : List Char → Nat → Option Nat
  | [], acc => some acc
  | c :: cs, acc =>
    match digitVal c with
    | some d => if d < base then parseDigitsAux base cs (acc * base + d) else none
    | none => none

/-- Nonempty digit run in a given base. -/
def parseDigits (base : Nat) (cs : List Char) : Option Nat :=
  if cs.isEmpty then none else parseDigitsAux base cs 0

/-- Modelled from the spec, section 4.3: the unsigned part of the integer
literal grammar — decimal, binary with a 0b or 0B marker, octal with a
0o or 0O marker or a legacy leading zero, hexadecimal with 0x or 0X.
Fractional text has no rule here and therefore fails. -/
def parseMag : List Char → Option Nat
  | '0' :: 'b' :: cs => parseDigits 2 cs
  | '0' :: 'B' :: cs => parseDigits 2 cs
  | '0' :: 'o' :: cs => parseDigits 8 cs
  | '0' :: 'O' :: cs => parseDigits 8 cs
  | '0' :: 'x' :: cs => parseDigits 16 cs
  | '0' :: 'X' :: cs => parseDigits 16 cs
  | '0' :: cs => if cs.isEmpty then some 0 else parseDigits 8 cs
  | cs => parseDigits 10 cs

/-- Integer literal with an optional sign in front of the base-marked
magnitude. -/
def parseIntLit (s : String) : Option Int :=
  match s.toList with
  | '+' :: cs => (parseMag cs).map Int.ofNat
  | '-' :: cs => (parseMag cs).map (fun n => -(Int.ofNat n))
  | cs => (parseMag cs).map Int.ofNat

/-- Width check: signed targets take the symmetric two-complement range,
unsigned targets reject negative values and overflow. -/
def intRange (sg : Bool) (bits : Nat) (n : Int) : Bool :=
  if sg then decide (-(2 ^ (bits - 1) : Int) ≤ n ∧ n < 2 ^ (bits - 1))
  else decide (0 ≤ n ∧ n < 2 ^ bits)

/-- The parse step of a fixed-width integer hook: on rejection (bad
grammar or width overflow) the error carries the fixed sanitized message
only. -/
def intHookParse (k : GoKind) (sg : Bool) (bits : Nat) (msg : String)
    (s : String) : Except String GoValue :=
  match parseIntLit s with
  | some n => if intRange sg bits n then .ok (.numV k n) else .error msg
  | none => .error msg

/-- Modelled from the spec: the shared build of the fixed-width integer
hooks. -/
def mkIntHook (k : GoKind) (sg : Bool) (bits : Nat) (msg : String) : CatalogHook where
  targetKind := k
  failMsg := msg
  parse := intHookParse k sg bits msg

/-- Modelled from the spec: text to 8-bit signed integer. -/
def StringToInt8HookFunc : CatalogHook := mkIntHook .int8K true 8 "cannot decode to int8"

/-- Modelled from the spec: text to 8-bit unsigned integer. -/
def StringToUint8HookFunc : CatalogHook := mkIntHook .uint8K false 8 "cannot decode to uint8"

/-- Modelled from the spec: text to 16-bit signed integer. -/
def StringToInt16HookFunc : CatalogHook := mkIntHook .int16K true 16 "cannot decode to int16"

/-- Modelled from the spec: text to 16-bit unsigned integer. -/
def StringToUint16HookFunc : CatalogHook := mkIntHook .uint16K false 16 "cannot decode to uint16"

/-- Modelled from the spec: text to 32-bit signed integer. -/
def StringToInt32HookFunc : CatalogHook := mkIntHook .int32K true 32 "cannot decode to int32"

/-- Modelled from the spec: text to 32-bit unsigned integer. -/
def StringToUint32HookFunc : CatalogHook := mkIntHook .uint32K false 32 "cannot decode to uint32"

/-- Modelled from the spec: text to 64-bit signed integer. -/
def StringToInt64HookFunc : CatalogHook := mkIntHook .int64K true 64 "cannot decode to int64"

/-- Modelled from the spec: text to 64-bit unsigned integer. -/
def StringToUint64HookFunc : CatalogHook := mkIntHook .uint64K false 64 "cannot decode to uint64"

/-- Modelled from the spec: text to platform-width signed integer. -/
def StringToIntHookFunc : CatalogHook := mkIntHook .intK true 64 "cannot decode to int"

/-- Modelled from the spec: text to platform-width unsigned integer. -/
def StringToUintHookFunc : CatalogHook := mkIntHook .uintK false 64 "cannot decode to uint"

/-- Modelled from the spec: text to single byte. -/
def StringToByteHookFunc : CatalogHook := mkIntHook .uint8K false 8 "cannot decode to byte"

/-- Modelled from the spec: text to single code point. -/
def StringToRuneHookFunc : CatalogHook := mkIntHook .int32K true 32 "cannot decode to rune"

/-- The boolean literal grammar of the thin boolean wrapper. -/
def parseBool (s : String) : Option Bool :=
  if s = "1" ∨ s = "t" ∨ s = "T" ∨ s = "TRUE" ∨ s = "true" ∨ s = "True" then some true
  else if s = "0" ∨ s = "f" ∨ s = "F" ∨ s = "FALSE" ∨ s = "false" ∨ s = "False" then some false
  else none

/-- The parse step of the boolean hook. -/
def boolHookParse (msg : String) (s : String) : Except String GoValue :=
  match parseBool s with
  | some b => .ok (.boolV b)
  | none => .error msg

/-- Modelled from the spec: text to boolean, a thin wrapper with the same
sanitized failure semantics. -/
def StringToBoolHookFunc : CatalogHook where
  targetKind := .boolK
  failMsg := "cannot decode to bool"
  parse := boolHookParse "cannot decode to bool"

/-- Decimal digit run to its value. -/
def digitsToNat (cs : List Char) : Nat :=
  cs.foldl (fun a c => a * 10 + (c.toNat - 48)) 0

/-- Nonempty all-digit run. -/
def digitsNonempty (cs : List Char) : Bool :=
  !cs.isEmpty && cs.all Char.isDigit

/-- Optionally signed nonempty digit run (the exponent of a float). -/
def signedDigits : List Char → Bool
  | '+' :: cs => digitsNonempty cs
  | '-' :: cs => digitsNonempty cs
  | cs => digitsNonempty cs

/-- The exponent tail of a float literal: empty, or an e or E marker with
an optionally signed digit run. -/
def expPart : List Char → Bool
  | [] => true
  | 'e' :: cs => signedDigits cs
  | 'E' :: cs => signedDigits cs
  | _ => false

/-- Unsigned float magnitude: digits with an optional point and fraction
(at least one digit overall), then an optional exponent. -/
def floatMag (cs : List Char) : Bool :=
  let p := cs.span Char.isDigit
  match p.2 with
  | '.' :: rest =>
    let q := rest.span Char.isDigit
    decide (p.1.length + q.1.length > 0) && expPart q.2
  | _ => !p.1.isEmpty && expPart p.2

/-- Modelled from the spec, section 4.3: the standard decimal and
exponential floating-point grammar with an optional sign. -/
def parseFloatLit : List Char → Bool
  | '+' :: cs => floatMag cs
  | '-' :: cs => floatMag cs
  | cs => floatMag cs

/-- The float grammar on a string. -/
def parseFloatStr (s : String) : Bool :=
  parseFloatLit s.toList

/-- An imaginary component: an optionally signed float magnitude followed
by the letter i. -/
def floatThenI (cs : List Char) : Bool :=
  match cs.reverse with
  | 'i' :: rest => parseFloatLit rest.reverse
  | _ => false

/-- Split search for the sum forms of a complex literal: a sign position
that is not the leading character and does not follow an exponent marker,
with a float on the left and a signed imaginary component on the right. -/
def complexSumSplit : List Char → List Char → Bool
  | _, [] => false
  | pre, c :: rest =>
    ((c == '+' || c == '-') && !pre.isEmpty &&
        pre.getLast? != some 'e' && pre.getLast? != some 'E' &&
        parseFloatLit pre && floatThenI (c :: rest)) ||
      complexSumSplit (pre ++ [c]) rest

/-- Modelled from the spec, section 4.3: the complex grammar accepts a
real part alone, an imaginary part alone, and their sum or difference. -/
def parseComplexLit (s : String) : Bool :=
  parseFloatLit s.toList || floatThenI s.toList || complexSumSplit [] s.toList

/-- One duration unit marker. -/
def durationUnit : List Char → Option (List Char)
  | 'n' :: 's' :: rest => some rest
  | 'u' :: 's' :: rest => some rest
  | 'µ' :: 's' :: rest => some rest
  | 'm' :: 's' :: rest => some rest
  | 's' :: rest => some rest
  | 'm' :: rest => some rest
  | 'h' :: rest => some rest
  | _ => none

/-- One or more number-and-unit terms, with fuel bounded by the input
length (every term consumes at least one character). -/
def durationTermsAux : Nat → List Char → Bool
  | 0, _ => false
  | fuel + 1, cs =>
    let p := cs.span Char.isDigit
    if p.1.isEmpty then false
    else
      let afterNum : Option (List Char) :=
        match p.2 with
        | '.' :: r =>
          let q := r.span Char.isDigit
          if q.1.isEmpty then none else some q.2
        | r => some r
      match afterNum with
      | none => false
      | some r =>
        match durationUnit r with
        | none => false
        | some [] => true
        | some rest => durationTermsAux fuel rest

/-- Modelled from the spec, section 4.3: the relative-duration grammar —
an optional sign, then number-and-unit terms, with a bare zero allowed;
a bare number such as "5" has no unit and fails. -/
def parseDurationLit (s : String) : Bool :=
  match s.toList with
  | [] => false
  | ['0'] => true
  | '+' :: cs => durationTermsAux cs.length cs
  | '-' :: cs => durationTermsAux cs.length cs
  | cs => durationTermsAux cs.length cs

/-- Modelled from the spec and the time test: the RFC3339 layout shape
that the time hook is instantiated with in the tests. -/
def parseTimeRFC3339 (s : String) : Bool :=
  match s.toList with
  | [y1, y2, y3, y4, '-', m1, m2, '-', d1, d2, 'T',
     h1, h2, ':', n1, n2, ':', s1, s2, 'Z'] =>
    [y1, y2, y3, y4, m1, m2, d1, d2, h1, h2, n1, n2, s1, s2].all Char.isDigit
  | _ => false

/-- Scheme scan of the URL grammar: a colon may only follow scheme
characters; a relative URL with no colon is fine, and a slash ends the
scheme position. -/
def urlSchemeScan : List Char → Bool
  | [] => true
  | ':' :: _ => true
  | '/' :: _ => true
  | c :: rest => (c.isAlphanum || c == '+' || c == '-' || c == '.') && urlSchemeScan rest

/-- Modelled from the spec, section 4.3: the URL grammar check — a URL may
not start with a colon (an empty scheme), and any colon must be preceded
by scheme characters only. -/
def parseURLLit (s : String) : Bool :=
  match s.toList with
  | ':' :: _ => false
  | cs => urlSchemeScan cs

/-- One dotted-quad octet: one to three digits valued at most 255. -/
def ipv4Octet (s : String) : Bool :=
  digitsNonempty s.toList && decide (s.toList.length ≤ 3) &&
    decide (digitsToNat s.toList ≤ 255)

/-- Dotted-quad address shape. -/
def parseIPv4Lit (s : String) : Bool :=
  match s.splitOn "." with
  | [a, b, c, d] => ipv4Octet a && ipv4Octet b && ipv4Octet c && ipv4Octet d
  | _ => false

/-- Simplified textual shape of a colon-grouped IPv6 address. -/
def parseIPv6Lit (s : String) : Bool :=
  s.toList.contains ':' &&
    decide ((s.splitOn ":").length ≤ 8) &&
    (s.splitOn ":").all (fun g =>
      decide (g.toList.length ≤ 4) && g.toList.all (fun c => (digitVal c).isSome))

/-- Modelled from the spec, section 4.3: the IP address grammar. -/
def parseIPLit (s : String) : Bool :=
  parseIPv4Lit s || parseIPv6Lit s

/-- Modelled from the spec, section 4.3: the CIDR and address-prefix
grammar — an address, a slash, and a digit-run length of at most 128. -/
def parseCIDRLit (s : String) : Bool :=
  match s.splitOn "/" with
  | [ip, bits] =>
    parseIPLit ip && digitsNonempty bits.toList &&
      decide (digitsToNat bits.toList ≤ 128)
  | _ => false

/-- Modelled from the spec, section 4.3: the address-with-port grammar —
an address, the final colon, and a numeric port of at most 65535. -/
def parseAddrPortLit (s : String) : Bool :=
  match s.toList.reverse.span (fun c => c != ':') with
  | (portRev, ':' :: addrRev) =>
    digitsNonempty portRev.reverse &&
      decide (digitsToNat portRev.reverse ≤ 65535) &&
      parseIPLit (String.mk addrRev.reverse)
  | _ => false

/-- The parse step of a text-to-domain hook: the domain grammar decides,
and rejection produces only the fixed sanitized message. -/
def domainHookParse (k : GoKind) (grammar : String → Bool) (msg : String)
    (s : String) : Except String GoValue :=
  if grammar s then .ok (.domainV k s) else .error msg

/-- Modelled from the spec: the shared build of the text-to-domain hooks
(time values, network addresses, floats, complexes). -/
def mkDomainHook (k : GoKind) (grammar : String → Bool) (msg : String) : CatalogHook where
  targetKind := k
  failMsg := msg
  parse := domainHookParse k grammar msg

/-- Modelled from the spec: text to relative duration. -/
def StringToTimeDurationHookFunc : CatalogHook :=
  mkDomainHook .durationK parseDurationLit "cannot decode to duration"

/-- Modelled from the spec: text to time value (the RFC3339 layout the
tests instantiate the hook with). -/
def StringToTimeHookFunc : CatalogHook :=
  mkDomainHook .timeK parseTimeRFC3339 "cannot decode to time"

/-- Modelled from the spec: text to URL. -/
def StringToURLHookFunc : CatalogHook :=
  mkDomainHook .urlK parseURLLit "cannot decode to URL"

/-- Modelled from the spec: text to IP address. -/
def StringToIPHookFunc : CatalogHook :=
  mkDomainHook .ipK parseIPLit "cannot decode to IP address"

/-- Modelled from the spec: text to IP network (CIDR). -/
def StringToIPNetHookFunc : CatalogHook :=
  mkDomainHook .ipNetK parseCIDRLit "cannot decode to IP network"

/-- Modelled from the spec: text to network address. -/
def StringToNetIPAddrHookFunc : CatalogHook :=
  mkDomainHook .netAddrK parseIPLit "cannot decode to network address"

/-- Modelled from the spec: text to network address with port. -/
def StringToNetIPAddrPortHookFunc : CatalogHook :=
  mkDomainHook .netAddrPortK parseAddrPortLit "cannot decode to network address and port"

/-- Modelled from the spec: text to network address prefix. -/
def StringToNetIPPrefixHookFunc : CatalogHook :=
  mkDomainHook .netPrefixK parseCIDRLit "cannot decode to network address prefix"

/-- Modelled from the spec: text to 32-bit float. -/
def StringToFloat32HookFunc : CatalogHook :=
  mkDomainHook .float32K parseFloatStr "cannot decode to float32"

/-- Modelled from the spec: text to 64-bit float. -/
def StringToFloat64HookFunc : CatalogHook :=
  mkDomainHook .float64K parseFloatStr "cannot decode to float64"

/-- Modelled from the spec: text to 64-bit complex. -/
def StringToComplex64HookFunc : CatalogHook :=
  mkDomainHook .complex64K parseComplexLit "cannot decode to complex64"

/-- Modelled from the spec: text to 128-bit complex. -/
def StringToComplex128HookFunc : CatalogHook :=
  mkDomainHook .complex128K parseComplexLit "cannot decode to complex128"

/-- Modelled from the spec, section 4.3: the capability hook. A textual
source aimed at the capability owner's category is handed to the
destination's own parse-from-text capability; that capability's failure
is propagated unchanged (field context is added by the outer decoder).
Any other pair passes through. -/
def TextUnmarshallerHookFunc (cap : String → Except String GoValue)
    (capK : GoKind) (src tgt : GoValue) : Except String GoValue :=
  match src with
  | .str s => if tgt.kind = capK then cap s else .ok (.str s)
  | v => .ok v

/-- The modelled non-conservative coercion catalog: the fixed-width
numeric hooks, the thin wrappers, and the text-to-domain hooks. -/
def modelledCatalog : List CatalogHook :=
  [StringToInt8HookFunc, StringToUint8HookFunc,
   StringToInt16HookFunc, StringToUint16HookFunc,
   StringToInt32HookFunc, StringToUint32HookFunc,
   StringToInt64HookFunc, StringToUint64HookFunc,
   StringToIntHookFunc, StringToUintHookFunc,
   StringToByteHookFunc, StringToRuneHookFunc,
   StringToBoolHookFunc,
   StringToTimeDurationHookFunc, StringToTimeHookFunc,
   StringToURLHookFunc, StringToIPHookFunc, StringToIPNetHookFunc,
   StringToNetIPAddrHookFunc, StringToNetIPAddrPortHookFunc,
   StringToNetIPPrefixHookFunc,
   StringToFloat32HookFunc, StringToFloat64HookFunc,
   StringToComplex64HookFunc, StringToComplex128HookFunc]

/-- A byte element of a byte slice, as a character. -/
def byteChar : GoValue → Option Char
  | .numV .uint8K n => if 0 ≤ n ∧ n < 256 then some (Char.ofNat n.toNat) else none
  | _ => none

/-- Raw reinterpretation of a byte sequence as text. -/
def bytesToString (l : List GoValue) : Option String :=
  (l.mapM byteChar).map (fun cs => String.mk cs)

/-- Modelled from the spec and the table of `TestWeaklyTypedHook`: the
opt-in permissive hook converts booleans (to "0" or "1"), numerics (to
decimal form) and byte sequences (raw reinterpretation) when the target is
text, and passes everything else through unchanged. -/
def WeaklyTypedHook (src tgt : GoValue) : Except String GoValue :=
  match tgt.kind with
  | .stringK =>
    match src with
    | .boolV b => .ok (.str (if b then "1" else "0"))
    | .numV _ n => .ok (.str (toString n))
    | .sliceV elems =>
      match bytesToString elems with
      | some s => .ok (.str s)
      | none => .error "cannot convert slice to string"
    | v => .ok v
  | _ => .ok src

mutual

/-- Modelled from the spec, section 4.4: a structured record becomes a
generic mapping, field by field, nested records becoming nested
mappings; any other value is left untouched. -/
def structToMap : GoValue → GoValue
  | .structV fields => .mapV (structToMapFields fields)
  | v => v

/-- Field list of a record, converted recursively. -/
def structToMapFields : List (String × GoValue) → List (String × GoValue)
  | [] => []
  | (n, v) :: rest => (n, structToMap v) :: structToMapFields rest

end

/-- Modelled from the spec: the struct-to-map hook converts a structured
source only when the destination is a generic mapping or an untyped
placeholder, and is a conservative passthrough for every other
source/target pair. -/
def RecursiveStructToMapHookFunc (src tgt : GoValue) : Except String GoValue :=
  match src with
  | .structV fields =>
    match tgt.kind with
    | .mapK => .ok (structToMap (.structV fields))
    | .interfaceK => .ok (structToMap (.structV fields))
    | _ => .ok (.structV fields)
  | v => .ok v

/-- Modelled from the spec, section 4.1: a decode hook after
calling-convention normalization takes the source category, the target
category and the value. -/
abbrev Hook := GoKind → GoKind → GoValue → Except String GoValue

/-- Modelled from the spec, section 4.2: the left fold of the sequential
composition. Each output becomes the next source and its category is
recomputed from the value; the first failure is returned at once, without
running the remaining hooks. -/
def composeRun (tk : GoKind) : List Hook → GoValue → Except String GoValue
  | [], data => .ok data
  | h :: rest, data =>
    match h data.kind tk data with
    | .error e => .error e
    | .ok v => composeRun tk rest v

/-- Modelled from the spec: `ComposeDecodeHookFunc` (AND-compose). -/
def ComposeDecodeHookFunc (hs : List Hook) : Hook :=
  fun _ tk data => composeRun tk hs data

/-- The declaration-order concatenation of failure messages, each
terminated by a line break, as the OR combinator accumulates them. -/
def concatNewlineTerminated : List String → String
  | [] => ""
  | m :: rest => m ++ "\n" ++ concatNewlineTerminated rest

/-- Modelled from the spec, section 4.2: the accumulator loop of the
alternative composition. Each hook is tried on the original pair; the
first success wins; a failure appends its message and a line break to the
accumulator; when the hooks run out, the accumulator is the error. -/
def orRun (fk tk : GoKind) (data : GoValue) : List Hook → String → Except String GoValue
  | [], acc => .error acc
  | h :: rest, acc =>
    match h fk tk data with
    | .ok v => .ok v
    | .error e => orRun fk tk data rest (acc ++ (e ++ "\n"))

/-- Modelled from the spec: `OrComposeDecodeHookFunc` (OR-compose). -/
def OrComposeDecodeHookFunc (hs : List Hook) : Hook :=
  fun fk tk data => orRun fk tk data hs ""

/-- Whether `needle` occurs verbatim inside `hay`, at the character-list
level (the `strings.Contains` relation). -/
def listStartsWith : List Char → List Char → Bool
  | [], _ => true
  | _ :: _, [] => false
  | c :: cs, d :: ds => c = d && listStartsWith cs ds

/-- Occurrence of a character list at some position of another. -/
def listOccurs (needle : List Char) : List Char → Bool
  | [] => listStartsWith needle []
  | c :: cs => listStartsWith needle (c :: cs) || listOccurs needle cs

/-- `strings.Contains hay needle` as a computable check. -/
def containsOccurrence (hay needle : String) : Bool :=
  listOccurs needle.data hay.data

/-! ### Theorems -/

/-- Sorting with `sortStrings` yields a sorted permutation, and it is
canonical: permuted inputs sort to the same list. -/
theorem sortStrings_perm (l : List String) : (sortStrings l).Perm l :=
  List.perm_insertionSort _ l

theorem sortStrings_sorted (l : List String) :
    (sortStrings l).Sorted (fun a b => a ≤ b) :=
  List.sorted_insertionSort _ l

theorem sortStrings_congr_perm {l₁ l₂ : List String} (h : l₁.Perm l₂) :
    sortStrings l₁ = sortStrings l₂ :=
  List.eq_of_perm_of_sorted
    (((sortStrings_perm l₁).trans h).trans (sortStrings_perm l₂).symm)
    (sortStrings_sorted l₁) (sortStrings_sorted l₂)

/-- C1: the formatted report of an aggregated error is the message count,
the text " error(s) decoding:", a blank line, and one bullet line per
message (each message prefixed by an asterisk and a space) joined by
newlines, the bullet lines in lexically sorted order; and the report does
not depend on the order in which the messages were collected. -/
theorem joinedError_format (e : JoinedError) :
    ∃ bullets : List String,
      e.errorStr =
        toString e.Errors.length ++ " error(s) decoding:\n\n" ++
          String.intercalate "\n" bullets ∧
      bullets.Perm (e.Errors.map (fun m => "* " ++ m)) ∧
      bullets.Sorted (fun a b => a ≤ b) ∧
      ∀ e' : JoinedError, e'.Errors.Perm e.Errors → e'.errorStr = e.errorStr := by
  refine ⟨sortStrings (e.Errors.map (fun m => "* " ++ m)), rfl,
    sortStrings_perm _, sortStrings_sorted _, ?_⟩
  intro e' hperm
  show toString e'.Errors.length ++ " error(s) decoding:\n\n" ++
      String.intercalate "\n" (sortStrings (e'.Errors.map (fun m => "* " ++ m))) =
    toString e.Errors.length ++ " error(s) decoding:\n\n" ++
      String.intercalate "\n" (sortStrings (e.Errors.map (fun m => "* " ++ m)))
  rw [hperm.length_eq, sortStrings_congr_perm (hperm.map _)]

/-- Witness for C1: collecting the same two messages in either order gives
the identical report. -/
theorem joinedError_format_witness :
    (JoinedError.mk ["b", "a"]).errorStr = (JoinedError.mk ["a", "b"]).errorStr := by
  obtain ⟨bullets, h1, h2, h3, h4⟩ := joinedError_format (JoinedError.mk ["a", "b"])
  exact h4 (JoinedError.mk ["b", "a"]) (List.Perm.swap "a" "b" [])

/-- C3: appending an aggregate splices its stored messages in stored
order (never nesting it as one entry); appending any non-aggregate error
appends exactly one entry, its formatted message; and the pre-existing
entries are unchanged and keep their order (they remain the prefix of the
result). -/
theorem appendErrors_spec (errs : List String) (err : GoError) :
    (∀ es, err = .joined es → appendErrors errs err = errs ++ es) ∧
    ((∀ es, err ≠ .joined es) → appendErrors errs err = errs ++ [err.errorMsg]) ∧
    (appendErrors errs err).take errs.length = errs := by
  refine ⟨?_, ?_, ?_⟩
  · rintro es rfl
    rfl
  · intro hne
    cases err with
    | joined es => exact absurd rfl (hne es)
    | decodeE name inner => rfl
    | cannotDecode name inner => rfl
    | prim msg => rfl
  · cases err <;> simp [appendErrors, List.take_left]

/-- Witness for C3: splicing an aggregate and appending a primitive error
behind an existing entry. -/
theorem appendErrors_spec_witness :
    appendErrors ["e0"] (.joined ["e1", "e2"]) = ["e0", "e1", "e2"] ∧
    appendErrors ["e0"] (.prim "p") = ["e0", "p"] := by
  constructor
  · exact (appendErrors_spec ["e0"] (.joined ["e1", "e2"])).1 ["e1", "e2"] rfl
  · have h := (appendErrors_spec ["e0"] (.prim "p")).2.1 (fun es hcontra => by cases hcontra)
    simpa [GoError.errorMsg] using h

/-- C4: structural decomposition of an aggregate holding n messages gives
exactly n primitive errors whose messages are the stored strings, in the
stored (unsorted) order. -/
theorem joinedError_unwrap_spec (e : JoinedError) :
    ∃ l : List GoError,
      JoinedError.Unwrap (some e) = some l ∧
      l.length = e.Errors.length ∧
      l.map GoError.errorMsg = e.Errors ∧
      ∀ x ∈ l, ∃ s, x = GoError.prim s := by
  refine ⟨e.Errors.map GoError.prim, rfl, by simp, ?_, ?_⟩
  · show List.map GoError.errorMsg (List.map GoError.prim e.Errors) = e.Errors
    induction e.Errors with
    | nil => rfl
    | cons a l ih => simpa [GoError.errorMsg] using ih
  · intro x hx
    rcases List.mem_map.mp hx with ⟨s, _, rfl⟩
    exact ⟨s, rfl⟩

/-- Witness for C4 on a two-message aggregate: the decomposition is the
two primitive errors in stored order, and its head is primitive. -/
theorem joinedError_unwrap_spec_witness :
    JoinedError.Unwrap (some (JoinedError.mk ["b", "a"])) =
      some [GoError.prim "b", GoError.prim "a"] ∧
    ∃ s, GoError.prim "b" = GoError.prim s := by
  obtain ⟨l, h1, h2, h3, h4⟩ := joinedError_unwrap_spec (JoinedError.mk ["b", "a"])
  have hl : l = [GoError.prim "b", GoError.prim "a"] := by
    have := h1.symm.trans (rfl : JoinedError.Unwrap (some (JoinedError.mk ["b", "a"])) =
      some [GoError.prim "b", GoError.prim "a"])
    exact Option.some.inj this
  subst hl
  exact ⟨h1, h4 (GoError.prim "b") (by simp)⟩

/-- C8: both field-naming error types format as the quoted field name
followed by the inner message (with a space separator for `DecodeError`
and a colon and space for `ErrCannotDecode`), so the field name always
appears at the front of the report. -/
theorem fieldError_names_field (n : String) (err : GoError) :
    (GoError.decodeE n err).errorMsg = (squote ++ n ++ squote) ++ (" " ++ err.errorMsg) ∧
    (GoError.cannotDecode n err).errorMsg = (squote ++ n ++ squote) ++ (": " ++ err.errorMsg) ∧
    (∃ rest, (GoError.decodeE n err).errorMsg = (squote ++ n ++ squote) ++ rest) ∧
    (∃ rest, (GoError.cannotDecode n err).errorMsg = (squote ++ n ++ squote) ++ rest) := by
  refine ⟨?_, ?_, ?_, ?_⟩
  · simp [GoError.errorMsg, String.append_assoc]
  · simp [GoError.errorMsg, String.append_assoc]
  · exact ⟨" " ++ err.errorMsg, by simp [GoError.errorMsg, String.append_assoc]⟩
  · exact ⟨": " ++ err.errorMsg, by simp [GoError.errorMsg, String.append_assoc]⟩

/-- C9: formatting never mutates the aggregate. In the state-passing
reading of the method, the receiver post-state equals the pre-state, the
produced message is the usual (sorted) report, and decomposition of the
post-state still yields the stored, unsorted order. -/
theorem joinedError_error_frame (e : JoinedError) :
    (e.errorSt).2 = e ∧
    (e.errorSt).1 = e.errorStr ∧
    JoinedError.Unwrap (some (e.errorSt).2) = some (e.Errors.map GoError.prim) :=
  ⟨rfl, rfl, rfl⟩

/-- C10: decomposing through a nil receiver returns nil instead of
dereferencing, and every non-nil receiver yields a non-nil slice of
exactly the stored length (so an empty message list gives an empty
slice, not a nil one). -/
theorem joinedError_unwrap_nil_safe :
    JoinedError.Unwrap none = none ∧
    ∀ e : JoinedError, ∃ l, JoinedError.Unwrap (some e) = some l ∧
      l.length = e.Errors.length :=
  ⟨rfl, fun e => ⟨e.Errors.map GoError.prim, rfl, by simp⟩⟩

/-- C7: the mandatory identity law. Every catalog hook (whatever its parse
function, over any non-text target category), the weak-typing hook and the
struct-to-map hook return the zero value unchanged, with no error, when
invoked with a zero-valued source and a target descriptor of the same
shape. -/
theorem builtin_hook_zero_identity :
    (∀ h : CatalogHook, h.targetKind ≠ .stringK →
        ∀ k : GoKind, h.run k.zero k.zero = .ok k.zero) ∧
    (∀ k : GoKind, WeaklyTypedHook k.zero k.zero = .ok k.zero) ∧
    (∀ k : GoKind, RecursiveStructToMapHookFunc k.zero k.zero = .ok k.zero) := by
  refine ⟨?_, ?_, ?_⟩
  · intro h hne k
    cases k <;> simp [GoKind.zero, CatalogHook.run, GoValue.kind, Ne.symm hne]
  · intro k
    cases k <;> rfl
  · intro k
    cases k <;> rfl

/-- Witness for C7: the int8 hook on the zero string pair, the weak-typing
hook and the struct-to-map hook on the zero record pair. -/
theorem builtin_hook_zero_identity_witness :
    StringToInt8HookFunc.run (GoKind.stringK.zero) (GoKind.stringK.zero) =
      .ok (GoKind.stringK.zero) ∧
    WeaklyTypedHook (GoKind.structK.zero) (GoKind.structK.zero) =
      .ok (GoKind.structK.zero) ∧
    RecursiveStructToMapHookFunc (GoKind.structK.zero) (GoKind.structK.zero) =
      .ok (GoKind.structK.zero) := by
  obtain ⟨h1, h2, h3⟩ := builtin_hook_zero_identity
  exact ⟨h1 StringToInt8HookFunc (by decide) GoKind.stringK,
    h2 GoKind.structK, h3 GoKind.structK⟩

/-- C6: AND-compose runs the first hook; on failure the composite returns
exactly that error and the result does not depend on the second hook,
which is never invoked; on success the composite result is the second
hook applied to the first output, with the source category recomputed
from that output. -/
theorem andCompose_spec (f g : Hook) (fk tk : GoKind) (data : GoValue) :
    (∀ e, f data.kind tk data = .error e →
        ComposeDecodeHookFunc [f, g] fk tk data = .error e ∧
        ∀ g' : Hook, ComposeDecodeHookFunc [f, g'] fk tk data = .error e) ∧
    (∀ v, f data.kind tk data = .ok v →
        ComposeDecodeHookFunc [f, g] fk tk data = g v.kind tk v) := by
  constructor
  · intro e he
    constructor
    · simp [ComposeDecodeHookFunc, composeRun, he]
    · intro g'
      simp [ComposeDecodeHookFunc, composeRun, he]
  · intro v hv
    show composeRun tk [f, g] data = g v.kind tk v
    cases hg : g v.kind tk v <;> simp [composeRun, hv, hg]

/-- Witness for C6, after the shapes of the combinator tests: a failing
first hook decides the outcome alone, and a succeeding first hook feeds
its output to the second. -/
theorem andCompose_spec_witness :
    ComposeDecodeHookFunc
        [fun _ _ _ => .error "foo", fun _ _ _ => .ok (.str "NOPE")]
        .stringK .sliceK (.str "") = .error "foo" ∧
    ComposeDecodeHookFunc
        [fun _ _ _ => .ok (.str "foo"),
         fun _ _ d => match d with | .str s => .ok (.str (s ++ "bar")) | v => .ok v]
        .stringK .sliceK (.str "") = .ok (.str "foobar") := by
  constructor
  · exact ((andCompose_spec (fun _ _ _ => .error "foo")
      (fun _ _ _ => .ok (.str "NOPE")) .stringK .sliceK (.str "")).1 "foo" rfl).1
  · have h := (andCompose_spec (fun _ _ _ => .ok (.str "foo"))
      (fun _ _ d => match d with | .str s => .ok (.str (s ++ "bar")) | v => .ok v)
      .stringK .sliceK (.str "")).2 (.str "foo") rfl
    exact h.trans rfl

/-- Helper for C5: the accumulator loop of the OR combinator, when every
hook fails, returns the accumulated text followed by all remaining
messages in order, each newline-terminated. -/
theorem orRun_all_fail (fk tk : GoKind) (data : GoValue)
    {hs : List Hook} {msgs : List String}
    (hf : List.Forall₂ (fun h m => h fk tk data = Except.error m) hs msgs) :
    ∀ acc, orRun fk tk data hs acc =
      .error (acc ++ concatNewlineTerminated msgs) := by
  induction hf with
  | nil =>
    intro acc
    simp [orRun, concatNewlineTerminated, String.append_empty]
  | cons hrel hrest ih =>
    intro acc
    simp only [orRun, hrel, ih, concatNewlineTerminated, String.append_assoc]

/-- C5: when every hook of an OR-composition fails on an input, the
composite returns one error whose message is every failure message
concatenated in declaration order, each terminated by a line break — with
no lexical sorting and no count prefix. -/
theorem orCompose_all_fail (hs : List Hook) (msgs : List String)
    (fk tk : GoKind) (data : GoValue)
    (hfail : List.Forall₂ (fun h m => h fk tk data = Except.error m) hs msgs) :
    OrComposeDecodeHookFunc hs fk tk data =
      .error (concatNewlineTerminated msgs) := by
  have h := orRun_all_fail fk tk data hfail ""
  simpa [OrComposeDecodeHookFunc, String.empty_append] using h

/-- Witness for C5, matching the OR-compose failure test: two failing
hooks produce one error holding both messages in declaration order,
newline-terminated. -/
theorem orCompose_all_fail_witness :
    OrComposeDecodeHookFunc
        [fun _ _ _ => .error "f1 error", fun _ _ _ => .error "f2 error"]
        .stringK .sliceK (.str "") = .error "f1 error\nf2 error\n" := by
  have h := orCompose_all_fail
    [fun _ _ _ => .error "f1 error", fun _ _ _ => .error "f2 error"]
    ["f1 error", "f2 error"] .stringK .sliceK (.str "")
    (List.Forall₂.cons rfl (List.Forall₂.cons rfl List.Forall₂.nil))
  exact h.trans rfl

/-- Helper for C2: a fixed-width integer hook that rejects an input fails
with exactly its fixed message. -/
theorem intHookParse_error (k : GoKind) (sg : Bool) (bits : Nat)
    (m s e : String) (hfail : intHookParse k sg bits m s = .error e) :
    e = m := by
  unfold intHookParse at hfail
  cases hp : parseIntLit s <;> rw [hp] at hfail
  · exact (Except.error.inj hfail).symm
  · rename_i n
    cases hr : intRange sg bits n <;> simp [hr] at hfail
    exact hfail.symm

/-- Helper for C2: the boolean hook rejects with exactly its fixed
message. -/
theorem boolHookParse_error (m s e : String)
    (hfail : boolHookParse m s = .error e) : e = m := by
  unfold boolHookParse at hfail
  cases hp : parseBool s <;> rw [hp] at hfail <;> simp at hfail
  exact hfail.symm

/-- C2 counterexample: the modelled text-to-int8 catalog hook rejects the
input "cannot decode to int8" (which is not an integer literal), yet the
resulting error message — the fixed sanitized description of the hook —
contains that rejected input verbatim, because the input coincides with
the description itself. -/
theorem stringToInt8_error_contains_rejected_input :
    StringToInt8HookFunc.run (.str "cannot decode to int8") (GoKind.int8K.zero) =
      .error "cannot decode to int8" ∧
    containsOccurrence "cannot decode to int8" "cannot decode to int8" = true :=
  ⟨rfl, by decide⟩

/-- Helper for C2: a text-to-domain hook that rejects an input fails with
exactly its fixed message. -/
theorem domainHookParse_error (k : GoKind) (g : String → Bool) (m s e : String)
    (hfail : domainHookParse k g m s = .error e) : e = m := by
  unfold domainHookParse at hfail
  cases hg : g s <;> simp [hg] at hfail
  exact hfail.symm

/-- C2 amended: every modelled catalog hook that rejects an input fails
with its fixed sanitized description, computed without reference to the
input — so the rejected input occurs in the error message only if it
already occurs inside that fixed description; and the capability hook
propagates the failing capability's own message unchanged, adding no text
of its own. -/
theorem catalog_failMsg_input_independent :
    (∀ h ∈ modelledCatalog, ∀ s e : String, h.parse s = .error e →
        e = h.failMsg ∧
        (containsOccurrence h.failMsg s = false →
          containsOccurrence e s = false)) ∧
    (∀ (cap : String → Except String GoValue) (capK : GoKind) (s e : String)
        (tgt : GoValue), tgt.kind = capK → cap s = .error e →
        TextUnmarshallerHookFunc cap capK (.str s) tgt = .error e) := by
  constructor
  · intro h hmem s e hfail
    have he : e = h.failMsg := by
      simp only [modelledCatalog, List.mem_cons, List.not_mem_nil, or_false] at hmem
      rcases hmem with rfl | rfl | rfl | rfl | rfl | rfl | rfl | rfl | rfl | rfl |
        rfl | rfl | rfl | rfl | rfl | rfl | rfl | rfl | rfl | rfl |
        rfl | rfl | rfl | rfl | rfl <;>
        first
        | exact intHookParse_error _ _ _ _ _ _ hfail
        | exact boolHookParse_error _ _ _ hfail
        | exact domainHookParse_error _ _ _ _ _ hfail
    exact ⟨he, fun hc => he ▸ hc⟩
  · intro cap capK s e tgt hk hcap
    simp [TextUnmarshallerHookFunc, hk, hcap]

/-- Witness for the amended C2: the int8 hook rejecting a three-letter
input reports its fixed description, in which the input does not occur;
and a failing capability has its message propagated verbatim. -/
theorem catalog_failMsg_input_independent_witness :
    "cannot decode to int8" = StringToInt8HookFunc.failMsg ∧
    containsOccurrence "cannot decode to int8" "zzz" = false ∧
    TextUnmarshallerHookFunc (fun _ => .error "capability failure") .structK
      (.str "zzz") (GoKind.structK.zero) = .error "capability failure" := by
  have h1 := catalog_failMsg_input_independent.1 StringToInt8HookFunc
    (List.mem_cons_self _ _) "zzz" "cannot decode to int8" rfl
  have h2 := catalog_failMsg_input_independent.2
    (fun _ => .error "capability failure") .structK "zzz" "capability failure"
    (GoKind.structK.zero) rfl rfl
  exact ⟨h1.1, h1.2 (by decide), h2⟩

end Mapstructure
